import Mathlib

/-!
Verification of the customer-ledger system of sistema-recicladora
(src/clientes.py), a record-keeping tool for a recycling business.

The embedding translates the Python module statement by statement:
dictionaries become insertion-ordered association lists (Python dicts
preserve insertion order), floats become exact rationals, exceptions
become an error type returned next to the (unchanged) state, and the
wall clock is passed in as explicit date strings.
-/

namespace Recicladora

/-- One purchase record, as built in registrar_compra (clientes.py lines
127-134): date string, title-cased material, weight, unit price, total,
and the derived year-month key. -/
structure Compra where
  fecha : String
  material : String
  peso : ℚ
  precio_kg : ℚ
  total : ℚ
  mes : String
deriving Repr, DecidableEq

/-- One customer record, as built in agregar_cliente (clientes.py lines
86-96). -/
structure Cliente where
  nombre : String
  telefono : String
  direccion : String
  fecha_registro : String
  compras_totales : ℚ
  peso_total : ℚ
  num_transacciones : ℕ
  historial : List Compra
  activo : Bool
deriving Repr, DecidableEq

/-- The two ValueError raise sites of registrar_compra (lines 114-118)
and the one of agregar_cliente (line 76-77).  The spec names the first
NotFoundError and the other two ValidationError. -/
inductive Err where
  | clienteNoEncontrado (id : ℕ)
  | pesoInvalido
  | nombreVacio
deriving Repr, DecidableEq

/-- The precios_materiales dictionary: material name to price per kg. -/
abbrev Precios := List (String × ℚ)

/-- The clientes dictionary: customer id to customer record, in
insertion order. -/
abbrev Clientes := List (ℕ × Cliente)

/-- Python str.strip: remove leading and trailing whitespace. -/
def pyStrip (s : String) : String :=
  ⟨((s.data.dropWhile Char.isWhitespace).reverse.dropWhile
      Char.isWhitespace).reverse⟩

/-- Python str.lower: lowercase every character. -/
def pyLower (s : String) : String :=
  ⟨s.data.map Char.toLower⟩

/-- Python dict .get(k, default) on the price table. -/
def dictGet (d : Precios) (k : String) (default : ℚ) : ℚ :=
  match d.find? (fun p => p.1 == k) with
  | some p => p.2
  | none => default

/-- Python dict assignment d[k] = v on the price table: overwrite the
entry when the key exists, append otherwise. -/
def dictSet (d : Precios) (k : String) (v : ℚ) : Precios :=
  if d.any (fun p => p.1 == k) then
    d.map (fun p => if p.1 == k then (k, v) else p)
  else
    d ++ [(k, v)]

/-- Membership and lookup in the clientes dictionary, modelling
self.clientes[cliente_id]. -/
def lookupCliente (cs : Clientes) (id : ℕ) : Option Cliente :=
  (cs.find? (fun p => p.1 == id)).map Prod.snd

/-- In-place mutation of the record stored under an existing id, as
registrar_compra does through the cliente reference. -/
def actualizarCliente (cs : Clientes) (id : ℕ) (c : Cliente) : Clientes :=
  cs.map (fun p => if p.1 == id then (id, c) else p)

/-- Python str.title restricted to its behaviour on alphabetic runs: a
letter is uppercased when the previous character is not a letter and
lowercased otherwise. -/
def pyTitleAux : List Char → Bool → List Char
  | [], _ => []
  | c :: rest, prevAlpha =>
    if c.isAlpha then
      (if prevAlpha then c.toLower else c.toUpper) :: pyTitleAux rest true
    else
      c :: pyTitleAux rest false

/-- Python str.title on a string. -/
def pyTitle (s : String) : String :=
  ⟨pyTitleAux s.data false⟩

/-- The initial price table of SistemaClientes.__init__ (lines 51-61). -/
def precios_iniciales : Precios :=
  [("aluminio", 25), ("papel", 3), ("plastico", 8), ("plástico", 8),
   ("vidrio", 5), ("carton", 5/2), ("cartón", 5/2), ("metal", 15),
   ("cobre", 80)]

/-- agregar_cliente (lines 64-99).  The registration date is passed in
for datetime.now().  Returns the ledger as left by the call together
with the outcome: the raise on an empty trimmed name, the early return
of an existing id on an exact phone match against the raw argument, or
the insertion of a fresh record under max(existing ids) + 1. -/
def agregar_cliente (cs : Clientes) (nombre telefono direccion fecha : String) :
    Clientes × Except Err ℕ :=
  if pyStrip nombre = "" then
    (cs, .error .nombreVacio)
  else
    match cs.find? (fun p => p.2.telefono == telefono) with
    | some p => (cs, .ok p.1)
    | none =>
      let cliente_id := (cs.map Prod.fst).foldl max 0 + 1
      let nuevo : Cliente :=
        { nombre := pyTitle (pyStrip nombre)
          telefono := pyStrip telefono
          direccion := pyStrip direccion
          fecha_registro := fecha
          compras_totales := 0
          peso_total := 0
          num_transacciones := 0
          historial := []
          activo := true }
      (cs ++ [(cliente_id, nuevo)], .ok cliente_id)

/-- registrar_compra (lines 101-145).  The current date-time strings
are passed in for datetime.now().  Checks membership of the id, then
positivity of the weight, resolves the unit price (explicit argument,
else price table lookup of the lowercased material with default 5.0),
builds the purchase record, and updates the customer record and its
three running aggregates. -/
def registrar_compra (precios : Precios) (cs : Clientes) (cliente_id : ℕ)
    (material : String) (peso : ℚ) (precio_kg : Option ℚ)
    (fecha mes : String) : Clientes × Except Err ℚ :=
  match lookupCliente cs cliente_id with
  | none => (cs, .error (.clienteNoEncontrado cliente_id))
  | some cliente =>
    if peso ≤ 0 then
      (cs, .error .pesoInvalido)
    else
      let material_lower := pyLower material
      let precio := precio_kg.getD (dictGet precios material_lower 5)
      let total := peso * precio
      let compra : Compra :=
        { fecha := fecha
          material := pyTitle material
          peso := peso
          precio_kg := precio
          total := total
          mes := mes }
      let cliente' : Cliente :=
        { cliente with
          historial := cliente.historial ++ [compra]
          compras_totales := cliente.compras_totales + total
          peso_total := cliente.peso_total + peso
          num_transacciones := cliente.num_transacciones + 1 }
      (actualizarCliente cs cliente_id cliente', .ok total)

/-- Outcome of the price-configuration action, mirroring its three
print branches. -/
inductive ConfigResultado where
  | actualizado
  | precioInvalido
  | materialNoEncontrado
deriving Repr, DecidableEq

/-- configurar_precios (lines 382-403), with the two interactive reads
passed in as arguments (the material exactly as typed, the new price
already parsed).  The material is lowercased and trimmed as at line
390; the membership test precedes the positivity test, and only an
existing entry is ever updated. -/
def configurar_precios (precios : Precios) (material : String)
    (nuevo_precio : ℚ) : Precios × ConfigResultado :=
  let m := pyStrip (pyLower material)
  if precios.any (fun p => p.1 == m) then
    if 0 < nuevo_precio then
      (dictSet precios m nuevo_precio, .actualizado)
    else
      (precios, .precioInvalido)
  else
    (precios, .materialNoEncontrado)

/-- One row of the CSV export, the fields written at lines 335-338. -/
structure FilaCsv where
  id : ℕ
  nombre : String
  telefono : String
  direccion : String
  fecha_registro : String
  compras_totales : ℚ
  peso_total : ℚ
  num_transacciones : ℕ
deriving Repr, DecidableEq

/-- A file written by exportar_datos: either the JSON snapshot of the
clientes dictionary or the CSV report rows. -/
inductive Archivo where
  | json (nombre : String) (doc : Clientes)
  | csv (nombre : String) (filas : List FilaCsv)
deriving Repr, DecidableEq

/-- exportar_datos (lines 313-341), with the timestamp passed in for
datetime.now().  Returns the files written and the returned filename.
For a format other than json or csv (lowercased) neither branch runs:
no file is written and the local variable archivo is never bound, so
the final print and return fail with UnboundLocalError; that unset
outcome is the none case. -/
def exportar_datos (cs : Clientes) (formato : String) (timestamp : String) :
    List Archivo × Option String :=
  if pyLower formato = "json" then
    let archivo := "backup_clientes_" ++ timestamp ++ ".json"
    ([.json archivo cs], some archivo)
  else if pyLower formato = "csv" then
    let archivo := "reporte_clientes_" ++ timestamp ++ ".csv"
    let filas := cs.map (fun p =>
      { id := p.1
        nombre := p.2.nombre
        telefono := p.2.telefono
        direccion := p.2.direccion
        fecha_registro := p.2.fecha_registro
        compras_totales := p.2.compras_totales
        peso_total := p.2.peso_total
        num_transacciones := p.2.num_transacciones : FilaCsv })
    ([.csv archivo filas], some archivo)
  else
    ([], none)

/-- The decimal digit characters, for modelling the stringification of
dictionary keys by json.dump. -/
def digitChar : ℕ → Char
  | 0 => '0'
  | 1 => '1'
  | 2 => '2'
  | 3 => '3'
  | 4 => '4'
  | 5 => '5'
  | 6 => '6'
  | 7 => '7'
  | 8 => '8'
  | 9 => '9'
  | _ => '?'

/-- Value of a decimal digit character, for modelling int(k) at line
357. -/
def charDigit : Char → ℕ
  | '1' => 1
  | '2' => 2
  | '3' => 3
  | '4' => 4
  | '5' => 5
  | '6' => 6
  | '7' => 7
  | '8' => 8
  | '9' => 9
  | _ => 0

/-- Decimal representation of a natural number, most significant digit
first, modelling str(n). -/
def strOfNat (n : ℕ) : String :=
  if n = 0 then "0" else ⟨((Nat.digits 10 n).map digitChar).reverse⟩

/-- Python int(s) on a string of decimal digits. -/
def pyInt (s : String) : ℕ :=
  Nat.ofDigits 10 ((s.data.map charDigit).reverse)

/-- guardar_datos (lines 343-349): json.dump writes the clientes
dictionary with the integer keys stringified, values intact. -/
def guardar_datos (cs : Clientes) : List (String × Cliente) :=
  cs.map (fun p => (strOfNat p.1, p.2))

/-- cargar_datos (lines 351-364) on an existing readable file: parse
the document and re-key it by int(k). -/
def cargar_datos (doc : List (String × Cliente)) : Clientes :=
  doc.map (fun p => (pyInt p.1, p.2))

/-- One step of the interactive session relevant to the ledger: either
an agregar_cliente call or a registrar_compra call, each carrying the
strings the wall clock would supply. -/
inductive Op where
  | crear (nombre telefono direccion fecha : String)
  | comprar (id : ℕ) (material : String) (peso : ℚ) (precio : Option ℚ)
      (fecha mes : String)

/-- Apply one operation to the ledger; a raised error leaves the
ledger as the call left it (unchanged). -/
def aplicar (precios : Precios) (cs : Clientes) : Op → Clientes
  | .crear n t d f => (agregar_cliente cs n t d f).1
  | .comprar id mat peso pk f m =>
      (registrar_compra precios cs id mat peso pk f m).1

/-- Run a sequence of operations from the empty ledger. -/
def ejecutar (precios : Precios) (ops : List Op) : Clientes :=
  ops.foldl (aplicar precios) []

/-- The aggregate invariant of a customer record: the three running
aggregates agree with the history. -/
def invariante (c : Cliente) : Prop :=
  c.compras_totales = (c.historial.map Compra.total).sum ∧
  c.peso_total = (c.historial.map Compra.peso).sum ∧
  c.num_transacciones = c.historial.length

/-! ### Helper lemmas -/

lemma init_le_foldl_max (l : List ℕ) (b : ℕ) : b ≤ l.foldl max b := by
  induction l generalizing b with
  | nil => exact le_refl b
  | cons x xs ih => exact le_trans (le_max_left b x) (ih (max b x))

lemma mem_le_foldl_max (l : List ℕ) (b a : ℕ) (h : a ∈ l) :
    a ≤ l.foldl max b := by
  induction l generalizing b with
  | nil => cases h
  | cons x xs ih =>
    rcases List.mem_cons.mp h with rfl | hmem
    · exact le_trans (le_max_right b a) (init_le_foldl_max xs (max b a))
    · exact ih (max b x) hmem

lemma lookupCliente_cons_ne (p : ℕ × Cliente) (ps : Clientes) (id : ℕ)
    (h : (p.1 == id) = false) :
    lookupCliente (p :: ps) id = lookupCliente ps id := by
  unfold lookupCliente
  rw [List.find?_cons_of_neg _ (by simp [h])]

lemma lookup_actualizar (cs : Clientes) (id : ℕ) (c : Cliente)
    (h : (lookupCliente cs id).isSome) :
    lookupCliente (actualizarCliente cs id c) id = some c := by
  induction cs with
  | nil => simp [lookupCliente] at h
  | cons p ps ih =>
    by_cases hp : p.1 = id
    · simp [lookupCliente, actualizarCliente, List.find?, hp]
    · have hp' : (p.1 == id) = false := by simp [hp]
      have hcons : actualizarCliente (p :: ps) id c
          = p :: actualizarCliente ps id c := by
        unfold actualizarCliente
        simp only [List.map_cons]
        rw [if_neg (by simp [hp] : ¬((p.1 == id) = true))]
      rw [hcons, lookupCliente_cons_ne p _ id hp']
      rw [lookupCliente_cons_ne p ps id hp'] at h
      exact ih h

lemma mem_actualizar (cs : Clientes) (id : ℕ) (c : Cliente) (q : ℕ × Cliente)
    (h : q ∈ actualizarCliente cs id c) : q = (id, c) ∨ q ∈ cs := by
  rcases List.mem_map.mp h with ⟨p, hp, hq⟩
  by_cases hid : p.1 = id
  · left
    simpa [hid] using hq.symm
  · right
    have : q = p := by simpa [hid] using hq.symm
    exact this ▸ hp

lemma lookup_mem (cs : Clientes) (id : ℕ) (c : Cliente)
    (h : lookupCliente cs id = some c) : (id, c) ∈ cs := by
  unfold lookupCliente at h
  rcases hf : cs.find? (fun p => p.1 == id) with _ | p
  · rw [hf] at h
    cases h
  · rw [hf] at h
    have hpred := List.find?_some hf
    have hmem := List.mem_of_find?_eq_some hf
    have h1 : p.1 = id := by simpa using hpred
    have h2 : p.2 = c := by simpa using h
    have : p = (id, c) := Prod.ext h1 h2
    exact this ▸ hmem

lemma foldl_inv {σ α : Type _} (f : σ → α → σ) (P : σ → Prop) (Q : α → Prop)
    (hstep : ∀ s a, P s → Q a → P (f s a)) :
    ∀ (l : List α) (s : σ), P s → (∀ a ∈ l, Q a) → P (l.foldl f s) := by
  intro l
  induction l with
  | nil => intro s hs _; exact hs
  | cons x xs ih =>
    intro s hs hq
    exact ih (f s x) (hstep s x hs (hq x (List.mem_cons_self x xs)))
      (fun a ha => hq a (List.mem_cons_of_mem x ha))

lemma charDigit_digitChar (d : ℕ) (h : d < 10) : charDigit (digitChar d) = d := by
  interval_cases d <;> rfl

lemma pyInt_strOfNat (n : ℕ) : pyInt (strOfNat n) = n := by
  by_cases h : n = 0
  · subst h
    decide
  · unfold strOfNat pyInt
    rw [if_neg h]
    show Nat.ofDigits 10
      (((((Nat.digits 10 n).map digitChar).reverse : List Char).map
        charDigit).reverse) = n
    rw [← List.map_reverse, List.reverse_reverse, List.map_map]
    have hdig : (Nat.digits 10 n).map (charDigit ∘ digitChar)
        = (Nat.digits 10 n).map id :=
      List.map_congr_left
        (fun d hd => charDigit_digitChar d (Nat.digits_lt_base (by norm_num) hd))
    rw [hdig, List.map_id, Nat.ofDigits_digits]

lemma dictGet_pos (d : Precios) (k : String) (default : ℚ)
    (hd : ∀ p ∈ d, 0 < p.2) (hdef : 0 < default) : 0 < dictGet d k default := by
  unfold dictGet
  rcases hf : d.find? (fun p => p.1 == k) with _ | p
  · rw [hf]
    exact hdef
  · rw [hf]
    exact hd p (List.mem_of_find?_eq_some hf)

lemma dictGet_dictSet_same (d : Precios) (k : String) (v : ℚ) (default : ℚ)
    (h : d.any (fun p => p.1 == k) = true) :
    dictGet (dictSet d k v) k default = v := by
  unfold dictSet
  rw [if_pos h]
  induction d with
  | nil => simp at h
  | cons p ps ih =>
    by_cases hp : p.1 = k
    · simp [dictGet, List.find?, hp]
    · have hp' : (p.1 == k) = false := by simp [hp]
      have hmem : ps.any (fun q => q.1 == k) = true := by
        simpa [List.any_cons, hp'] using h
      simpa [dictGet, List.find?, hp'] using ih hmem

lemma agregar_cliente_vacio (cs : Clientes) (nombre telefono direccion fecha : String)
    (hn : pyStrip nombre = "") :
    agregar_cliente cs nombre telefono direccion fecha = (cs, .error .nombreVacio) := by
  simp [agregar_cliente, hn]

lemma agregar_cliente_dup (cs : Clientes) (nombre telefono direccion fecha : String)
    (p : ℕ × Cliente) (hn : ¬ pyStrip nombre = "")
    (hf : cs.find? (fun q => q.2.telefono == telefono) = some p) :
    agregar_cliente cs nombre telefono direccion fecha = (cs, .ok p.1) := by
  simp [agregar_cliente, hn, hf]

lemma agregar_cliente_new (cs : Clientes) (nombre telefono direccion fecha : String)
    (hn : ¬ pyStrip nombre = "")
    (hf : cs.find? (fun q => q.2.telefono == telefono) = none) :
    agregar_cliente cs nombre telefono direccion fecha
      = (cs ++ [((cs.map Prod.fst).foldl max 0 + 1,
          { nombre := pyTitle (pyStrip nombre)
            telefono := pyStrip telefono
            direccion := pyStrip direccion
            fecha_registro := fecha
            compras_totales := 0
            peso_total := 0
            num_transacciones := 0
            historial := []
            activo := true })],
         .ok ((cs.map Prod.fst).foldl max 0 + 1)) := by
  simp [agregar_cliente, hn, hf]

lemma registrar_compra_absent (precios : Precios) (cs : Clientes) (cliente_id : ℕ)
    (material : String) (peso : ℚ) (pk : Option ℚ) (fecha mes : String)
    (hl : lookupCliente cs cliente_id = none) :
    registrar_compra precios cs cliente_id material peso pk fecha mes
      = (cs, .error (.clienteNoEncontrado cliente_id)) := by
  simp [registrar_compra, hl]

lemma registrar_compra_peso (precios : Precios) (cs : Clientes) (cliente_id : ℕ)
    (material : String) (peso : ℚ) (pk : Option ℚ) (fecha mes : String)
    (cliente : Cliente) (hl : lookupCliente cs cliente_id = some cliente)
    (hpeso : peso ≤ 0) :
    registrar_compra precios cs cliente_id material peso pk fecha mes
      = (cs, .error .pesoInvalido) := by
  simp [registrar_compra, hl, hpeso]

lemma registrar_compra_ok (precios : Precios) (cs : Clientes) (cliente_id : ℕ)
    (material : String) (peso : ℚ) (pk : Option ℚ) (fecha mes : String)
    (cliente : Cliente) (hl : lookupCliente cs cliente_id = some cliente)
    (hpeso : ¬ peso ≤ 0) :
    registrar_compra precios cs cliente_id material peso pk fecha mes
      = (actualizarCliente cs cliente_id
          { cliente with
            historial := cliente.historial ++
              [{ fecha := fecha
                 material := pyTitle material
                 peso := peso
                 precio_kg := pk.getD (dictGet precios (pyLower material) 5)
                 total := peso * pk.getD (dictGet precios (pyLower material) 5)
                 mes := mes }]
            compras_totales := cliente.compras_totales
              + peso * pk.getD (dictGet precios (pyLower material) 5)
            peso_total := cliente.peso_total + peso
            num_transacciones := cliente.num_transacciones + 1 },
         .ok (peso * pk.getD (dictGet precios (pyLower material) 5))) := by
  simp [registrar_compra, hl, hpeso]

lemma invariante_aplicar (precios : Precios) (cs : Clientes) (op : Op)
    (h : ∀ p ∈ cs, invariante p.2) :
    ∀ p ∈ aplicar precios cs op, invariante p.2 := by
  cases op with
  | crear nombre telefono direccion fecha =>
    by_cases hn : pyStrip nombre = ""
    · simpa [aplicar, agregar_cliente_vacio cs nombre telefono direccion fecha hn]
        using h
    · rcases hf : cs.find? (fun q => q.2.telefono == telefono) with _ | p
      · intro p hp
        rw [aplicar, agregar_cliente_new cs nombre telefono direccion fecha hn hf] at hp
        rcases List.mem_append.mp hp with hmem | hnew
        · exact h p hmem
        · rcases List.mem_singleton.mp hnew with rfl
          simp [invariante]
      · simpa [aplicar, agregar_cliente_dup cs nombre telefono direccion fecha p hn hf]
          using h
  | comprar id material peso pk fecha mes =>
    rcases hl : lookupCliente cs id with _ | cliente
    · simpa [aplicar, registrar_compra_absent precios cs id material peso pk fecha mes hl]
        using h
    · by_cases hpeso : peso ≤ 0
      · simpa [aplicar,
          registrar_compra_peso precios cs id material peso pk fecha mes cliente hl hpeso]
          using h
      · intro p hp
        rw [aplicar,
          registrar_compra_ok precios cs id material peso pk fecha mes cliente hl hpeso]
          at hp
        rcases mem_actualizar _ _ _ _ hp with rfl | hmem
        · rcases h (id, cliente) (lookup_mem cs id cliente hl) with ⟨h1, h2, h3⟩
          dsimp only at h1 h2 h3
          refine ⟨?_, ?_, ?_⟩
          · simp [invariante, h1]
          · simp [invariante, h2]
          · simp [invariante, h3]
        · exact h p hmem

/-- The unit-price argument of a recordTransaction call is either
omitted or positive. -/
def precioOk : Option ℚ → Bool
  | none => true
  | some q => decide (0 < q)

/-- An operation whose caller-supplied unit price, if any, is
positive. -/
def opOk : Op → Bool
  | .crear _ _ _ _ => true
  | .comprar _ _ _ pk _ _ => precioOk pk

/-- Positivity invariant of a customer record: every stored unit price
is positive and the monetary and weight aggregates are non-negative. -/
def posInv (c : Cliente) : Prop :=
  (∀ x ∈ c.historial, 0 < x.precio_kg) ∧
  0 ≤ c.compras_totales ∧ 0 ≤ c.peso_total

lemma posInv_aplicar (precios : Precios) (cs : Clientes) (op : Op)
    (hpre : ∀ p ∈ precios, 0 < p.2) (hok : opOk op = true)
    (h : ∀ p ∈ cs, posInv p.2) :
    ∀ p ∈ aplicar precios cs op, posInv p.2 := by
  cases op with
  | crear nombre telefono direccion fecha =>
    by_cases hn : pyStrip nombre = ""
    · simpa [aplicar, agregar_cliente_vacio cs nombre telefono direccion fecha hn]
        using h
    · rcases hf : cs.find? (fun q => q.2.telefono == telefono) with _ | p
      · intro p hp
        rw [aplicar, agregar_cliente_new cs nombre telefono direccion fecha hn hf] at hp
        rcases List.mem_append.mp hp with hmem | hnew
        · exact h p hmem
        · rcases List.mem_singleton.mp hnew with rfl
          simp [posInv]
      · simpa [aplicar, agregar_cliente_dup cs nombre telefono direccion fecha p hn hf]
          using h
  | comprar id material peso pk fecha mes =>
    rcases hl : lookupCliente cs id with _ | cliente
    · simpa [aplicar, registrar_compra_absent precios cs id material peso pk fecha mes hl]
        using h
    · by_cases hpeso : peso ≤ 0
      · simpa [aplicar,
          registrar_compra_peso precios cs id material peso pk fecha mes cliente hl hpeso]
          using h
      · intro p hp
        rw [aplicar,
          registrar_compra_ok precios cs id material peso pk fecha mes cliente hl hpeso]
          at hp
        have hprecio : 0 < pk.getD (dictGet precios (pyLower material) 5) := by
          cases pk with
          | none => exact dictGet_pos precios (pyLower material) 5 hpre (by norm_num)
          | some q =>
            have : decide (0 < q) = true := by simpa [opOk, precioOk] using hok
            simpa using of_decide_eq_true this
        have htotal : 0 < peso * pk.getD (dictGet precios (pyLower material) 5) :=
          mul_pos (lt_of_not_le hpeso) hprecio
        rcases mem_actualizar _ _ _ _ hp with rfl | hmem
        · rcases h (id, cliente) (lookup_mem cs id cliente hl) with ⟨h1, h2, h3⟩
          dsimp only at h1 h2 h3
          refine ⟨?_, ?_, ?_⟩
          · intro x hx
            rcases List.mem_append.mp hx with hx | hx
            · exact h1 x hx
            · rcases List.mem_singleton.mp hx with rfl
              exact hprecio
          · exact add_nonneg h2 (le_of_lt htotal)
          · exact add_nonneg h3 (le_of_lt (lt_of_not_le hpeso))
        · exact h p hmem

/-! ### Concrete scenario states -/

/-- The ledger after creating the customer of the worked example in
the spec. -/
def esc_cs1 : Clientes :=
  (agregar_cliente [] "Juan Pérez" "555-1234" "Av. Central 10" "2025-06-01").1

/-- First recorded purchase of the worked example: 10 kg of carton at
the table price. -/
def esc_r1 : Clientes × Except Err ℚ :=
  registrar_compra precios_iniciales esc_cs1 1 "carton" 10 none
    "2025-06-02 10:00" "2025-06"

/-- Second recorded purchase of the worked example: 2 kg of aluminio
at the table price. -/
def esc_r2 : Clientes × Except Err ℚ :=
  registrar_compra precios_iniciales esc_r1.1 1 "aluminio" 2 none
    "2025-06-03 10:00" "2025-06"

/-- A plain customer record with empty history, used to instantiate
the universally quantified theorems at a concrete input. -/
def clienteW : Cliente :=
  ⟨"Ana", "1", "d", "2025-06-01", 0, 0, 0, [], true⟩

/-- A small concrete operation sequence: one creation followed by one
purchase. -/
def opsW : List Op :=
  [.crear "Ana" "1" "d" "2025-06-01",
   .comprar 1 "papel" 2 none "2025-06-02 10:00" "2025-06"]

/-! ### The claims -/

/-- C2: for every customer record in the ledger, after any sequence of
createCustomer and recordTransaction operations starting from the
empty ledger, totalSpend equals the sum of the total fields over the
history, totalWeight the sum of the weight fields, and
transactionCount the length of the history. -/
theorem registros_cumplen_invariante (precios : Precios) (ops : List Op) :
    ∀ p ∈ ejecutar precios ops, invariante p.2 := by
  have := foldl_inv (aplicar precios) (fun cs => ∀ p ∈ cs, invariante p.2)
    (fun _ => True)
    (fun cs op hcs _ => invariante_aplicar precios cs op hcs)
    ops [] (by simp) (fun _ _ => trivial)
  exact this

theorem registros_cumplen_invariante_witness :
    invariante ((ejecutar precios_iniciales opsW).get ⟨0, by decide⟩).2 :=
  registros_cumplen_invariante precios_iniciales opsW _
    (List.get_mem (ejecutar precios_iniciales opsW) 0 (by decide))

/-- C1: with the customer present and a positive weight,
recordTransaction resolves the unit price (the explicit argument when
supplied, otherwise the price-table entry of the lowercased material,
default 5), returns weight times that unit price, and appends exactly
one transaction carrying the (title-cased) material, the weight, the
resolved unit price and the total to the history of that customer, updating
the three aggregates.  In particular the worked example holds: carton
at 10 kg returns 25, aluminio at 2 kg returns 50, and the aggregates
end at 75, 12 and 2. -/
theorem registrar_compra_correcta :
    (∀ (precios : Precios) (cs : Clientes) (cliente_id : ℕ) (material : String)
        (peso : ℚ) (pk : Option ℚ) (fecha mes : String) (cliente : Cliente),
        lookupCliente cs cliente_id = some cliente → 0 < peso →
        (registrar_compra precios cs cliente_id material peso pk fecha mes).2
            = .ok (peso * pk.getD (dictGet precios (pyLower material) 5)) ∧
        lookupCliente
            (registrar_compra precios cs cliente_id material peso pk fecha mes).1
            cliente_id
          = some { cliente with
              historial := cliente.historial ++
                [{ fecha := fecha, material := pyTitle material, peso := peso,
                   precio_kg := pk.getD (dictGet precios (pyLower material) 5),
                   total := peso * pk.getD (dictGet precios (pyLower material) 5),
                   mes := mes }],
              compras_totales := cliente.compras_totales
                + peso * pk.getD (dictGet precios (pyLower material) 5),
              peso_total := cliente.peso_total + peso,
              num_transacciones := cliente.num_transacciones + 1 }) ∧
    (esc_r1.2 = .ok 25 ∧ esc_r2.2 = .ok 50 ∧
     (lookupCliente esc_r2.1 1).map Cliente.compras_totales = some 75 ∧
     (lookupCliente esc_r2.1 1).map Cliente.peso_total = some 12 ∧
     (lookupCliente esc_r2.1 1).map Cliente.num_transacciones = some 2) := by
  constructor
  · intro precios cs cliente_id material peso pk fecha mes cliente hl hpeso
    have hpeso' : ¬ peso ≤ 0 := not_le.mpr hpeso
    rw [registrar_compra_ok precios cs cliente_id material peso pk fecha mes
      cliente hl hpeso']
    exact ⟨rfl, lookup_actualizar cs cliente_id _ (by simp [hl])⟩
  · refine ⟨?_, ?_, ?_, ?_, ?_⟩
    · rw [show esc_r1.2 = .ok (10 * (5/2) : ℚ) from rfl]
      norm_num
    · rw [show esc_r2.2 = .ok (2 * 25 : ℚ) from rfl]
      norm_num
    · rw [show (lookupCliente esc_r2.1 1).map Cliente.compras_totales
          = some (0 + 10 * (5/2) + 2 * 25 : ℚ) from rfl]
      norm_num
    · rw [show (lookupCliente esc_r2.1 1).map Cliente.peso_total
          = some (0 + 10 + 2 : ℚ) from rfl]
      norm_num
    · rfl

theorem registrar_compra_correcta_witness :
    (registrar_compra [("papel", 3)] [(1, clienteW)] 1 "papel" 2 none "f" "m").2
        = .ok (2 * 3) ∧
    lookupCliente
        (registrar_compra [("papel", 3)] [(1, clienteW)] 1 "papel" 2 none "f" "m").1 1
      = some { clienteW with
          historial := [{ fecha := "f",
                          material := "Papel",
                          peso := 2,
                          precio_kg := 3,
                          total := 2 * 3,
                          mes := "m" }],
          compras_totales := 0 + 2 * 3,
          peso_total := 0 + 2,
          num_transacciones := 1 } :=
  registrar_compra_correcta.1 [("papel", 3)] [(1, clienteW)] 1 "papel" 2 none
    "f" "m" clienteW rfl (by decide)

/-- C3: recordTransaction fails with the not-found error whenever the
customer id is absent, fails with the weight validation error whenever
the customer exists and the weight is non-positive, and in either
failure case the whole ledger mapping is returned exactly as it was
(no transaction appended, no aggregate changed). -/
theorem registrar_compra_fallos (precios : Precios) (cs : Clientes)
    (cliente_id : ℕ) (material : String) (peso : ℚ) (pk : Option ℚ)
    (fecha mes : String) :
    (lookupCliente cs cliente_id = none →
      registrar_compra precios cs cliente_id material peso pk fecha mes
        = (cs, .error (.clienteNoEncontrado cliente_id))) ∧
    (∀ cliente, lookupCliente cs cliente_id = some cliente → peso ≤ 0 →
      registrar_compra precios cs cliente_id material peso pk fecha mes
        = (cs, .error .pesoInvalido)) :=
  ⟨fun hl => registrar_compra_absent precios cs cliente_id material peso pk
     fecha mes hl,
   fun cliente hl hpeso => registrar_compra_peso precios cs cliente_id material
     peso pk fecha mes cliente hl hpeso⟩

theorem registrar_compra_fallos_witness :
    registrar_compra [] [] 7 "papel" 2 none "f" "m"
      = ([], .error (.clienteNoEncontrado 7)) ∧
    registrar_compra [] [(1, clienteW)] 1 "papel" (-2) none "f" "m"
      = ([(1, clienteW)], .error .pesoInvalido) :=
  ⟨(registrar_compra_fallos [] [] 7 "papel" 2 none "f" "m").1 rfl,
   (registrar_compra_fallos [] [(1, clienteW)] 1 "papel" (-2) none "f" "m").2
     clienteW rfl (by decide)⟩

/-- C9: when the customer id is absent and the weight is non-positive
at the same time, the call fails with the not-found error, not with
the weight validation error: the existence check runs first. -/
theorem chequeo_existencia_primero (precios : Precios) (cs : Clientes)
    (cliente_id : ℕ) (material : String) (peso : ℚ) (pk : Option ℚ)
    (fecha mes : String) (habs : lookupCliente cs cliente_id = none)
    (hpeso : peso ≤ 0) :
    (registrar_compra precios cs cliente_id material peso pk fecha mes).2
        = .error (.clienteNoEncontrado cliente_id) ∧
    (registrar_compra precios cs cliente_id material peso pk fecha mes).2
        ≠ .error .pesoInvalido := by
  rw [registrar_compra_absent precios cs cliente_id material peso pk fecha mes habs]
  exact ⟨rfl, by simp⟩

theorem chequeo_existencia_primero_witness :
    (registrar_compra [] [] 7 "papel" (-2) none "f" "m").2
        = .error (.clienteNoEncontrado 7) ∧
    (registrar_compra [] [] 7 "papel" (-2) none "f" "m").2
        ≠ .error .pesoInvalido :=
  chequeo_existencia_primero [] [] 7 "papel" (-2) none "f" "m" rfl (by decide)

/-- C4: with a non-empty trimmed name, createCustomer returns an
existing id and leaves the ledger untouched when some customer already
has exactly that phone; otherwise it appends one fresh record keyed by
the successor of the maximum existing id (1 on an empty ledger), with
zero aggregates and empty history, and that key is strictly larger
than every existing id. -/
theorem agregar_cliente_correcto (cs : Clientes)
    (nombre telefono direccion fecha : String) (hn : pyStrip nombre ≠ "") :
    ((∃ p ∈ cs, p.2.telefono = telefono) →
      (agregar_cliente cs nombre telefono direccion fecha).1 = cs ∧
      ∃ q ∈ cs, (agregar_cliente cs nombre telefono direccion fecha).2 = .ok q.1 ∧
        q.2.telefono = telefono) ∧
    ((∀ p ∈ cs, p.2.telefono ≠ telefono) →
      agregar_cliente cs nombre telefono direccion fecha
        = (cs ++ [((cs.map Prod.fst).foldl max 0 + 1,
            { nombre := pyTitle (pyStrip nombre),
              telefono := pyStrip telefono,
              direccion := pyStrip direccion,
              fecha_registro := fecha,
              compras_totales := 0,
              peso_total := 0,
              num_transacciones := 0,
              historial := [],
              activo := true })],
           .ok ((cs.map Prod.fst).foldl max 0 + 1)) ∧
      (∀ p ∈ cs, p.1 < (cs.map Prod.fst).foldl max 0 + 1) ∧
      (cs = [] → (cs.map Prod.fst).foldl max 0 + 1 = 1)) := by
  constructor
  · rintro ⟨p, hp, htel⟩
    have hs : (cs.find? (fun q => q.2.telefono == telefono)).isSome := by
      rw [List.find?_isSome]
      exact ⟨p, hp, by simp [htel]⟩
    rcases ho : cs.find? (fun q => q.2.telefono == telefono) with _ | q
    · rw [ho] at hs
      simp at hs
    · rw [agregar_cliente_dup cs nombre telefono direccion fecha q hn ho]
      refine ⟨rfl, q, List.mem_of_find?_eq_some ho, rfl, ?_⟩
      simpa using List.find?_some ho
  · intro hall
    have hf : cs.find? (fun q => q.2.telefono == telefono) = none := by
      rw [List.find?_eq_none]
      intro p hp
      simp [hall p hp]
    refine ⟨agregar_cliente_new cs nombre telefono direccion fecha hn hf, ?_, ?_⟩
    · intro p hp
      have : p.1 ≤ (cs.map Prod.fst).foldl max 0 :=
        mem_le_foldl_max _ 0 p.1 (List.mem_map_of_mem Prod.fst hp)
      omega
    · intro hcs
      subst hcs
      rfl

theorem agregar_cliente_correcto_witness :
    ((agregar_cliente [(1, clienteW)] "Bea" "1" "e" "g").1 = [(1, clienteW)] ∧
     ∃ q ∈ [(1, clienteW)],
       (agregar_cliente [(1, clienteW)] "Bea" "1" "e" "g").2 = .ok q.1 ∧
       q.2.telefono = "1") ∧
    (agregar_cliente [] "Ana" "1" "d" "f"
       = ([(1, { nombre := "Ana", telefono := "1", direccion := "d",
                 fecha_registro := "f", compras_totales := 0, peso_total := 0,
                 num_transacciones := 0, historial := [], activo := true })],
          .ok 1) ∧
     (∀ p ∈ ([] : Clientes), p.1 < 1) ∧
     (([] : Clientes) = [] → 0 + 1 = 1)) :=
  ⟨(agregar_cliente_correcto [(1, clienteW)] "Bea" "1" "e" "g" (by decide)).1
     ⟨(1, clienteW), by simp, rfl⟩,
   (agregar_cliente_correcto [] "Ana" "1" "d" "f" (by decide)).2 (by simp)⟩

/-- An operation sequence recording one purchase with an explicitly
supplied negative unit price, which registrar_compra accepts
unchecked. -/
def opsNeg : List Op :=
  [.crear "Ana" "1" "d" "2025-06-01",
   .comprar 1 "papel" 1 (some (-3)) "2025-06-02 10:00" "2025-06"]

/-- C5 counterexample: a recordTransaction call with caller-supplied
unit price -3 is accepted, stores a transaction whose unit price is
not positive, and leaves the customer with a negative totalSpend. -/
theorem precio_positivo_counterexample :
    (lookupCliente (ejecutar precios_iniciales opsNeg) 1).map
        (fun c => c.historial.map Compra.precio_kg) = some [-3] ∧
    (lookupCliente (ejecutar precios_iniciales opsNeg) 1).map
        Cliente.compras_totales = some (-3) ∧
    ¬ (0 : ℚ) < -3 ∧ (-3 : ℚ) < 0 := by
  refine ⟨rfl, ?_, by decide, by decide⟩
  rw [show (lookupCliente (ejecutar precios_iniciales opsNeg) 1).map
      Cliente.compras_totales = some (0 + 1 * (-3) : ℚ) from rfl]
  norm_num

/-- C5 amended: every transaction stored by a recordTransaction call
whose caller-supplied unit price, when present, is positive has a
positive unit price (with a price table whose entries are all
positive, as the initial one is), and consequently totalSpend and
totalWeight are non-negative after any such operation sequence from
the empty ledger.  With an explicitly supplied unit price of zero or
below, the transaction is stored unvalidated and totalSpend can turn
negative. -/
theorem precio_positivo_amended (precios : Precios) (ops : List Op)
    (hpre : precios.all (fun p => decide (0 < p.2)) = true)
    (hops : ops.all opOk = true) :
    ∀ p ∈ ejecutar precios ops,
      (∀ x ∈ p.2.historial, 0 < x.precio_kg) ∧
      0 ≤ p.2.compras_totales ∧ 0 ≤ p.2.peso_total := by
  have hpre' : ∀ p ∈ precios, 0 < p.2 := fun p hp =>
    of_decide_eq_true (List.all_eq_true.mp hpre p hp)
  exact foldl_inv (aplicar precios) (fun cs => ∀ p ∈ cs, posInv p.2)
    (fun op => opOk op = true)
    (fun cs op hcs hop => posInv_aplicar precios cs op hpre' hop hcs)
    ops [] (by simp) (List.all_eq_true.mp hops)

theorem precio_positivo_amended_witness :
    (∀ x ∈ ((ejecutar [("papel", 3)] opsW).get ⟨0, by decide⟩).2.historial,
        0 < x.precio_kg) ∧
    0 ≤ ((ejecutar [("papel", 3)] opsW).get ⟨0, by decide⟩).2.compras_totales ∧
    0 ≤ ((ejecutar [("papel", 3)] opsW).get ⟨0, by decide⟩).2.peso_total :=
  precio_positivo_amended [("papel", 3)] opsW (by decide) (by decide)
    _ (List.get_mem (ejecutar [("papel", 3)] opsW) 0 (by decide))

/-- C6: saving and then loading reproduces the ledger mapping exactly,
with the stringified ids parsed back to the same integers and every
record and history preserved in order. -/
theorem guardar_cargar_roundtrip (cs : Clientes) :
    cargar_datos (guardar_datos cs) = cs := by
  unfold guardar_datos cargar_datos
  rw [List.map_map]
  conv_rhs => rw [← List.map_id cs]
  apply List.map_congr_left
  intro p _
  show (pyInt (strOfNat p.1), p.2) = p
  rw [pyInt_strOfNat]

/-- C7 counterexample: setting a price for a material with no existing
entry, even a positive one, inserts nothing: the table is returned
unchanged with the material-not-found outcome, and a subsequent get of
that material still yields the 5.0 default rather than the new
price. -/
theorem configurar_precios_counterexample :
    configurar_precios precios_iniciales "oro" 100
        = (precios_iniciales, .materialNoEncontrado) ∧
    precios_iniciales.find? (fun p => p.1 == pyStrip (pyLower "oro")) = none ∧
    dictGet (configurar_precios precios_iniciales "oro" 100).1
        (pyStrip (pyLower "oro")) 5 = 5 ∧
    (5 : ℚ) ≠ 100 :=
  ⟨rfl, rfl, rfl, by norm_num⟩

/-- C7 amended: when the (lowercased, trimmed) material has an entry
in the table, a non-positive price fails with the validation outcome
leaving the table unchanged, and a positive price overwrites that
entry so a subsequent get returns the new price; when the material has
no entry, the call fails with the material-not-found outcome and the
table is unchanged — no new entry is ever inserted. -/
theorem configurar_precios_amended (precios : Precios) (material : String)
    (precio : ℚ) :
    (precios.any (fun p => p.1 == pyStrip (pyLower material)) = true →
      (precio ≤ 0 →
        configurar_precios precios material precio = (precios, .precioInvalido)) ∧
      (0 < precio →
        (configurar_precios precios material precio).2 = .actualizado ∧
        dictGet (configurar_precios precios material precio).1
          (pyStrip (pyLower material)) 5 = precio)) ∧
    (precios.any (fun p => p.1 == pyStrip (pyLower material)) = false →
      configurar_precios precios material precio
        = (precios, .materialNoEncontrado)) := by
  constructor
  · intro hmem
    constructor
    · intro hle
      have hnlt : ¬ 0 < precio := not_lt.mpr hle
      simp [configurar_precios, hmem, hnlt]
    · intro hlt
      have hc : configurar_precios precios material precio
          = (dictSet precios (pyStrip (pyLower material)) precio, .actualizado) := by
        simp [configurar_precios, hmem, hlt]
      rw [hc]
      exact ⟨rfl, dictGet_dictSet_same precios (pyStrip (pyLower material))
        precio 5 hmem⟩
  · intro hmem
    simp [configurar_precios, hmem]

theorem configurar_precios_amended_witness :
    (configurar_precios [("papel", 3)] "papel" 4).2 = .actualizado ∧
    dictGet (configurar_precios [("papel", 3)] "papel" 4).1
        (pyStrip (pyLower "papel")) 5 = 4 :=
  ((configurar_precios_amended [("papel", 3)] "papel" 4).1 (by decide)).2
    (by decide)

/-- C8: for every format value whose lowercasing is neither json nor
csv, the export writes no file and the filename outcome is unset. -/
theorem exportar_datos_formato_invalido (cs : Clientes)
    (formato timestamp : String) (h1 : pyLower formato ≠ "json")
    (h2 : pyLower formato ≠ "csv") :
    exportar_datos cs formato timestamp = ([], none) := by
  simp [exportar_datos, h1, h2]

theorem exportar_datos_formato_invalido_witness :
    exportar_datos [] "xml" "t" = ([], none) :=
  exportar_datos_formato_invalido [] "xml" "t" (by decide) (by decide)

/-- The ledger after creating a customer with phone 555. -/
def c10_cs1 : Clientes :=
  (agregar_cliente [] "Ana" "555" "d" "2025-06-01").1

/-- Creating a second customer whose phone argument differs from the
stored one only by a trailing space. -/
def c10_r2 : Clientes × Except Err ℕ :=
  agregar_cliente c10_cs1 "Bea" "555 " "e" "2025-06-02"

/-- C10: the duplicate check compares the raw phone argument against
the trimmed stored phones, so a phone differing only by trailing
whitespace escapes it: a second customer is created and both stored
(trimmed) phones end up equal — trimmed-phone uniqueness is not an
invariant of the ledger. -/
theorem telefono_no_normalizado :
    c10_r2.2 = .ok 2 ∧
    c10_r2.1.map Prod.fst = [1, 2] ∧
    c10_r2.1.map (fun p => p.2.telefono) = ["555", "555"] :=
  ⟨rfl, rfl, rfl⟩

end Recicladora
